import Mathlib

/-!
Shallow embedding of the `atlast` Jira configuration-audit tool
(`src/scripts/services/project-service.ts`, `client-service.ts`,
`error-service.ts` and the `get-project` command module).

TypeScript strings are modelled as Lean `String`s; the JavaScript
`String.prototype.endsWith` / `startsWith` operations are modelled as
suffix / prefix tests on the character lists.  `fp-ts` `Either`
validations are modelled as `Except (List String)` (the list is the
non-empty accumulation of reasons).  The effectful `ReaderTaskEither`
pipelines are modelled as pure functions of the abstract results of the
underlying remote calls.
-/

deriving instance DecidableEq for Except

namespace Atlast

/-- Model of JavaScript `s.endsWith(pat)`: `pat`'s characters are a suffix
of `s`'s characters. -/
def strEndsWith (s pat : String) : Bool :=
  pat.data.isSuffixOf s.data

/-- Model of JavaScript `s.startsWith(pat)`: `pat`'s characters are a
prefix of `s`'s characters. -/
def strStartsWith (s pat : String) : Bool :=
  pat.data.isPrefixOf s.data

/-! ### Data model (project-service.ts types) -/

/-- Model of `JiraGroup`: an identity group (`groupId`, `displayName`). -/
structure JiraGroup where
  groupId : String
  displayName : String
  deriving DecidableEq, Repr

/-- Model of `ProjectGroupRole`: one role assignment, with the groups bound to it. -/
structure ProjectGroupRole where
  role : String
  groups : List JiraGroup
  deriving DecidableEq, Repr

/-- The `lead` component of a `Project` (`{ displayName: string }`). -/
structure ProjectLead where
  displayName : String
  deriving DecidableEq, Repr

/-- Model of `Project`: the assembled domain record handed to the validation
engine. -/
structure Project where
  id : String
  key : String
  lead : ProjectLead
  groupRoles : List ProjectGroupRole
  deriving DecidableEq, Repr

/-- Model of `JiraProjectSummary`: the project reference embedded in share
permissions (all string fields). -/
structure JiraProjectSummary where
  self : String
  name : String
  id : String
  projectTypeKey : String
  key : String
  deriving DecidableEq, Repr

/-- One entry of a filter's `sharePermissions` list; the io-ts schema
fixes `type` to the literal `'project'`. -/
structure SharePermission where
  id : Int
  type : String
  project : JiraProjectSummary
  deriving DecidableEq, Repr

/-- Model of `FilterConfiguration`: a saved search with its share permissions. -/
structure FilterConfiguration where
  id : String
  name : String
  jql : String
  sharePermissions : List SharePermission
  deriving DecidableEq, Repr

/-- The `Filter` consumed by `validatedFilter`; at runtime the values
flowing into it are the decoded `FilterConfiguration` records. -/
abbrev Filter := FilterConfiguration

/-- Model of `ProjectBoard`: a kanban board with its optionally resolved filter. -/
structure ProjectBoard where
  filter : Option Filter
  id : Int
  name : String
  type : String
  deriving DecidableEq, Repr

/-- Model of `JiraUser`: the project lead as returned by the service. -/
structure JiraUser where
  displayName : String
  self : String
  accountId : String
  deriving DecidableEq, Repr

/-- Model of `JiraProject`: the decoded "get project" response
(`JiraProjectSummary` plus a `lead`). -/
structure JiraProject where
  self : String
  name : String
  id : String
  projectTypeKey : String
  key : String
  lead : JiraUser
  deriving DecidableEq, Repr

/-- The union half of a role actor: either group-backed (`actorGroup`)
or user-backed (`actorUser.accountId`). -/
inductive JiraRoleActorDetail where
  | group (actorGroup : JiraGroup)
  | user (accountId : String)
  deriving DecidableEq, Repr

/-- One actor of a role: `{ id, displayName }` intersected with the
group/user union. -/
structure JiraRoleActor where
  id : Int
  displayName : String
  detail : JiraRoleActorDetail
  deriving DecidableEq, Repr

/-- Model of `JiraActorGroupRole.is actor`: the runtime tag check used to select
group-backed actors. -/
def isActorGroupRole (actor : JiraRoleActor) : Bool :=
  match actor.detail with
  | JiraRoleActorDetail.group _ => true
  | JiraRoleActorDetail.user _ => false

/-- Extracts `actor.actorGroup` when the actor is group-backed. -/
def actorGroup? (actor : JiraRoleActor) : Option JiraGroup :=
  match actor.detail with
  | JiraRoleActorDetail.group g => some g
  | JiraRoleActorDetail.user _ => none

/-- Model of `JiraProjectRoleDetails`: a role summary plus its actors. -/
structure JiraProjectRoleDetails where
  id : Int
  name : String
  self : String
  actors : List JiraRoleActor
  deriving DecidableEq, Repr

/-! ### Policy functions -/

/-- Model of `rolesForGroup` (project-service.ts): the roles a group should hold,
selected by the group name's suffix. -/
def rolesForGroup (group : String) : List String :=
  if strEndsWith group "-developers" then ["Team Member"]
  else if strEndsWith group "-business" then ["Business Owner"]
  else if strEndsWith group "-administrators" then ["Administrators"]
  else []

/-! ### Validation engine (get-project command module) -/

/-- Model of `difference` (get-project command): elements of `a1s` missing from
`a2s`, paired with elements of `a2s` missing from `a1s`. -/
def difference {α : Type} [BEq α] (a1s a2s : List α) :
    List α × List α :=
  (a1s.filter (fun a => !(a2s.contains a)),
   a2s.filter (fun a => !(a1s.contains a)))

/-- The membership test of `validatedGroup`'s `hasGroup` const: is the
group bound to at least one role of the project? -/
def groupPresent (project : Project) (group : String) : Bool :=
  project.groupRoles.any (fun groupRole =>
    groupRole.groups.any (fun g => g.displayName == group))

/-- The `actualRoles` const of `validatedGroup`: the names of the roles
the group is bound to. -/
def actualRolesFor (project : Project) (group : String) : List String :=
  (project.groupRoles.filter (fun groupRole =>
      groupRole.groups.any (fun g => g.displayName == group))).map
    (fun groupRole => groupRole.role)

/-- The `extraRoles` component of `difference actualRoles expectedRoles`. -/
def extraRolesFor (project : Project) (group : String) : List String :=
  (difference (actualRolesFor project group) (rolesForGroup group)).fst

/-- The `missingRoles` component of `difference actualRoles expectedRoles`. -/
def missingRolesFor (project : Project) (group : String) : List String :=
  (difference (actualRolesFor project group) (rolesForGroup group)).snd

/-- The `hasGroup` const of `validatedGroup`. -/
def hasGroupE (project : Project) (group : String) :
    Except (List String) String :=
  if groupPresent project group then Except.ok group
  else
    Except.error ["Project does not have required group [" ++ group ++ "]."]

/-- The `hasNoMissingRoles` const of `validatedGroup`. -/
def hasNoMissingRolesE (project : Project) (group : String) :
    Except (List String) String :=
  if (missingRolesFor project group).length == 0 then Except.ok group
  else
    Except.error
      ["Missing roles [" ++
        String.intercalate ", " (missingRolesFor project group) ++ "]"]

/-- The `hasNoExtraRoles` const of `validatedGroup`. -/
def hasNoExtraRolesE (project : Project) (group : String) :
    Except (List String) String :=
  if (extraRolesFor project group).length == 0 then Except.ok group
  else
    Except.error
      ["Extra roles [" ++
        String.intercalate ", " (extraRolesFor project group) ++ "]"]

/-- Model of `validatedGroup`: checks one expected group against a project.  The
final `match` models `E.chain` on `hasGroup` followed by
`Ap.sequenceT applicativeValidation (hasNoMissingRoles, hasNoExtraRoles)`,
which accumulates the failures of both checks (missing first, then
extra). -/
def validatedGroup (project : Project) (group : String) :
    Except (List String) String :=
  match hasGroupE project group with
  | Except.error e => Except.error e
  | Except.ok g =>
    match hasNoMissingRolesE project group, hasNoExtraRolesE project group with
    | Except.ok _, Except.ok _ => Except.ok g
    | Except.error e1, Except.error e2 => Except.error (e1 ++ e2)
    | Except.error e1, Except.ok _ => Except.error e1
    | Except.ok _, Except.error e2 => Except.error e2

/-- Model of `validatedFilter`: checks a board's filter, short-circuiting via
`E.chain` (the sharing check runs only when a filter is present). -/
def validatedFilter (project : Project) (board : ProjectBoard) :
    Except (List String) Filter :=
  let hasFilter : Except (List String) Filter :=
    match board.filter with
    | some filter => Except.ok filter
    | none => Except.error ["Project board does not have a filter."]
  let filterHasPermissions : Filter → Except (List String) Filter :=
    fun filter =>
      if filter.sharePermissions.any (fun permission =>
          permission.project.id == project.id) then
        Except.ok filter
      else Except.error ["Filter is not shared with project."]
  match hasFilter with
  | Except.ok filter => filterHasPermissions filter
  | Except.error e => Except.error e

/-! ### JSON values and the io-ts style decoders -/

/-- Untrusted JSON payloads returned by the remote service. -/
inductive Json where
  | null
  | bool (b : Bool)
  | num (n : Int)
  | str (s : String)
  | arr (items : List Json)
  | obj (fields : List (String × Json))

/-- Looks a key up in a decoded JSON object (`undefined` when absent). -/
def jGet (fields : List (String × Json)) (key : String) : Option Json :=
  (fields.find? (fun kv => kv.fst == key)).map (fun kv => kv.snd)

/-- The applicative combination of two validations used by io-ts: both
error lists are accumulated, never only the first. -/
def vApp {α β : Type} (f : Except (List String) (α → β))
    (a : Except (List String) α) : Except (List String) β :=
  match f, a with
  | Except.ok f, Except.ok a => Except.ok (f a)
  | Except.error e1, Except.error e2 => Except.error (e1 ++ e2)
  | Except.error e1, Except.ok _ => Except.error e1
  | Except.ok _, Except.error e2 => Except.error e2

/-- One rendered violation, in the style of `PathReporter` messages. -/
def invalidAt (path : String) : List String :=
  ["Invalid value supplied to " ++ path]

/-- Model of `T.string` at a field position (a missing field decodes like
`undefined` and is a violation). -/
def decodeStringAt (path : String) :
    Option Json → Except (List String) String
  | some (Json.str s) => Except.ok s
  | _ => Except.error (invalidAt path)

/-- Model of `T.number` at a field position. -/
def decodeNumberAt (path : String) :
    Option Json → Except (List String) Int
  | some (Json.num n) => Except.ok n
  | _ => Except.error (invalidAt path)

/-- A `T.partial` string field: absent is fine, present non-string is a
violation. -/
def decodeOptStringAt (path : String) :
    Option Json → Except (List String) (Option String)
  | none => Except.ok none
  | some (Json.str s) => Except.ok (some s)
  | some _ => Except.error (invalidAt path)

/-- Model of `T.literal` at a field position. -/
def decodeLiteralAt (path lit : String) :
    Option Json → Except (List String) String
  | some (Json.str s) =>
    if s == lit then Except.ok s else Except.error (invalidAt path)
  | _ => Except.error (invalidAt path)

/-- Model of `T.readonlyArray`: every element is decoded and all element
violations are accumulated. -/
def decodeArrayWith {α : Type} (dec : Json → Except (List String) α) :
    List Json → Except (List String) (List α)
  | [] => Except.ok []
  | x :: xs => vApp (Except.map List.cons (dec x)) (decodeArrayWith dec xs)

/-- Model of `T.string` applied to an array element. -/
def decodeStringItem (j : Json) : Except (List String) String :=
  decodeStringAt "string" (some j)

/-- The `JiraErrorResponse` codec (`{ errorMessages: string[] }`),
yielding the message list. -/
def decodeJiraErrorResponse : Json → Except (List String) (List String)
  | Json.obj fields =>
    match jGet fields "errorMessages" with
    | some (Json.arr items) => decodeArrayWith decodeStringItem items
    | _ => Except.error (invalidAt "errorMessages")
  | _ => Except.error (invalidAt "JiraErrorResponse")

/-- The decoded `filter` component of a board configuration
(`T.partial` with optional `id` and `self`). -/
structure FilterRef where
  id : Option String
  self : Option String
  deriving DecidableEq, Repr

/-- The decoded `BoardConfiguration` record. -/
structure BoardConfiguration where
  id : Int
  name : String
  type : String
  filter : FilterRef
  deriving DecidableEq, Repr

/-- Decoder for the `filter` field of a board configuration.  The field
itself is required (`T.type`), only its `id`/`self` are optional. -/
def decodeFilterRef (path : String) :
    Option Json → Except (List String) FilterRef
  | some (Json.obj fields) =>
    vApp
      (Except.map FilterRef.mk
        (decodeOptStringAt (path ++ "/id") (jGet fields "id")))
      (decodeOptStringAt (path ++ "/self") (jGet fields "self"))
  | _ => Except.error (invalidAt path)

/-- The `BoardConfiguration` codec: required `id`, `name`, `type` and
`filter`, with violations of all fields accumulated in declaration
order. -/
def decodeBoardConfiguration : Json → Except (List String) BoardConfiguration
  | Json.obj fields =>
    vApp
      (vApp
        (vApp
          (Except.map BoardConfiguration.mk
            (decodeNumberAt "id" (jGet fields "id")))
          (decodeStringAt "name" (jGet fields "name")))
        (decodeStringAt "type" (jGet fields "type")))
      (decodeFilterRef "filter" (jGet fields "filter"))
  | _ => Except.error (invalidAt "BoardConfiguration")

/-- The `JiraProjectSummary` codec (five required strings). -/
def decodeProjectSummary (path : String) :
    Option Json → Except (List String) JiraProjectSummary
  | some (Json.obj fields) =>
    vApp
      (vApp
        (vApp
          (vApp
            (Except.map JiraProjectSummary.mk
              (decodeStringAt (path ++ "/self") (jGet fields "self")))
            (decodeStringAt (path ++ "/name") (jGet fields "name")))
          (decodeStringAt (path ++ "/id") (jGet fields "id")))
        (decodeStringAt (path ++ "/projectTypeKey")
          (jGet fields "projectTypeKey")))
      (decodeStringAt (path ++ "/key") (jGet fields "key"))
  | _ => Except.error (invalidAt path)

/-- One `sharePermissions` entry: required `id`, the literal
`type: 'project'`, and a project summary. -/
def decodeSharePermission (j : Json) : Except (List String) SharePermission :=
  match j with
  | Json.obj fields =>
    vApp
      (vApp
        (Except.map SharePermission.mk
          (decodeNumberAt "sharePermissions/id" (jGet fields "id")))
        (decodeLiteralAt "sharePermissions/type" "project"
          (jGet fields "type")))
      (decodeProjectSummary "sharePermissions/project" (jGet fields "project"))
  | _ => Except.error (invalidAt "sharePermissions element")

/-- The `FilterConfiguration` codec. -/
def decodeFilterConfiguration : Json → Except (List String) FilterConfiguration
  | Json.obj fields =>
    vApp
      (vApp
        (vApp
          (Except.map FilterConfiguration.mk
            (decodeStringAt "id" (jGet fields "id")))
          (decodeStringAt "name" (jGet fields "name")))
        (decodeStringAt "jql" (jGet fields "jql")))
      (match jGet fields "sharePermissions" with
       | some (Json.arr items) => decodeArrayWith decodeSharePermission items
       | _ => Except.error (invalidAt "sharePermissions"))
  | _ => Except.error (invalidAt "FilterConfiguration")

/-! ### Rendering payloads into messages (JSON.stringify model) -/

mutual

/-- Renders a JSON value into the diagnostic messages (models
`JSON.stringify`, modulo whitespace and escaping). -/
def renderJson : Json → String
  | Json.null => "null"
  | Json.bool b => if b then "true" else "false"
  | Json.num n => toString n
  | Json.str s => "\"" ++ s ++ "\""
  | Json.arr items =>
    "[" ++ String.intercalate ", " (renderJsonList items) ++ "]"
  | Json.obj fields =>
    "\x7b" ++ String.intercalate ", " (renderJsonFields fields) ++ "\x7d"

/-- Renders the elements of a JSON array. -/
def renderJsonList : List Json → List String
  | [] => []
  | x :: xs => renderJson x :: renderJsonList xs

/-- Renders the fields of a JSON object. -/
def renderJsonFields : List (String × Json) → List String
  | [] => []
  | (k, v) :: kvs => ("\"" ++ k ++ "\": " ++ renderJson v) :: renderJsonFields kvs

end

/-! ### Errors and the decode wrapper -/

/-- A value thrown by the underlying client: either an `Error` instance
(carrying its message) or a non-`Error` value (represented by the string
`chainableError` would wrap it into). -/
inductive Thrown where
  | errObj (message : String)
  | nonError (jsonText : String)
  deriving DecidableEq, Repr

/-- The causes attached to wrapped errors via `chainableError`: in the
modelled code every cause is either the originally thrown value or the
service's error envelope, so causes are one level deep. -/
inductive ErrorCause where
  | thrown (original : Thrown)
  | envelope (errorMessages : List String)
  deriving DecidableEq, Repr

/-- The classified errors flowing through the pipelines: plain `Error`s
(with an optional cause), the service's `JiraErrorResponse` envelope,
the `ProjectNotFound` subclass, and the `AggregateError` produced by
`decode`. -/
inductive JiraError where
  | err (message : String) (cause : Option ErrorCause)
  | envelope (errorMessages : List String)
  | projectNotFound (message : String) (projectKey : String)
      (cause : Option ErrorCause)
  | aggregate (errors : List String) (message : String)
  deriving DecidableEq, Repr

/-- The `AggregateError` value built by `decode`: every individual
violation plus the context message. -/
structure AggregateError where
  errors : List String
  message : String
  deriving DecidableEq, Repr

/-- Model of `decode` (project-service.ts): run the codec, and on failure wrap
the full report of violations into one `AggregateError` whose message is
built by the supplied context-message function.  (`mapValidationError`'s
`PathReporter.report` rendering is folded into the codecs, which already
produce one message per violation.) -/
def decode {α : Type} (message : List String → Json → String)
    (decoder : Json → Except (List String) α) (input : Json) :
    Except AggregateError α :=
  match decoder input with
  | Except.ok value => Except.ok value
  | Except.error errors =>
    Except.error { errors := errors, message := message errors input }

/-- The context message used when a board configuration fails to
decode; embeds the board id and the undecodable payload. -/
def boardConfigurationMessage (boardId : Int) (_errors : List String)
    (undecodable : Json) : String :=
  "Failed to decode board configuration for [" ++ toString boardId ++
    "] [" ++ renderJson undecodable ++ "]."

/-- The context message used when a filter configuration fails to
decode; embeds the filter id and the undecodable payload. -/
def filterConfigurationMessage (filterId : String) (_errors : List String)
    (undecodable : Json) : String :=
  "Failed to decode filter configuration for [" ++ filterId ++
    "] [" ++ renderJson undecodable ++ "]."

/-! ### Remote call adapter (client-service.ts) -/

/-- Model of `chainableError` applied to the thrown value: the original failure
is preserved as a cause, never discarded. -/
def chainableError (error : Thrown) : ErrorCause :=
  ErrorCause.thrown error

/-- The failure classification of `makeRequest`: for an `Error` whose
message parses as JSON (`parse` models `JSON.parse`, `none` when parsing
throws) and decodes as the `JiraErrorResponse` envelope, the structured
envelope is exposed; otherwise a generic failure wrapping the original
cause. -/
def classifyRequestError (parse : String → Option Json) (error : Thrown) :
    JiraError :=
  match error with
  | Thrown.errObj msg =>
    match parse msg with
    | some json =>
      match decodeJiraErrorResponse json with
      | Except.ok errorMessages => JiraError.envelope errorMessages
      | Except.error _ =>
        JiraError.err "Failed when invoking Jira API."
          (some (chainableError error))
    | none =>
      JiraError.err "Failed when invoking Jira API."
        (some (chainableError error))
  | Thrown.nonError _ =>
    JiraError.err "Failed when invoking Jira API."
      (some (chainableError error))

/-- Model of `makeRequest`: the raw payload on success, the classified error on
failure.  `outcome` abstracts the settled promise of the one underlying
network call. -/
def makeRequest (parse : String → Option Json)
    (outcome : Except Thrown Json) : Except JiraError Json :=
  match outcome with
  | Except.ok payload => Except.ok payload
  | Except.error e => Except.error (classifyRequestError parse e)

/-! ### Fetch orchestrator (project-service.ts) -/

/-- The `RTE.mapLeft` classification inside `fetchProject`: a service
envelope containing a message starting with
"No project could be found with" becomes `ProjectNotFound`; any other
envelope is wrapped as an unknown-error `Error`; non-envelope errors
pass through unchanged. -/
def mapProjectFetchError (projectKey : String) (error : JiraError) :
    JiraError :=
  match error with
  | JiraError.envelope errorMessages =>
    if errorMessages.any (fun errorMessage =>
        strStartsWith errorMessage "No project could be found with") then
      JiraError.projectNotFound
        ("Project [" ++ projectKey ++ "] does not exist.") projectKey
        (some (ErrorCause.envelope errorMessages))
    else
      JiraError.err
        ("Unknown error while retrieving project [" ++ projectKey ++ "].")
        (some (ErrorCause.envelope errorMessages))
  | e => e

/-- The `groupRoles` assembly inside `fetchProject`: keep the roles that
have at least one group-backed actor, and pair each kept role's name
with the groups of its group-backed actors. -/
def assembleGroupRoles (roles : List JiraProjectRoleDetails) :
    List ProjectGroupRole :=
  (roles.filter (fun role => role.actors.any isActorGroupRole)).map
    (fun role =>
      { role := role.name, groups := role.actors.filterMap actorGroup? })

/-- The `augmentProject` record: the fetched project spread together
with the assembled `groupRoles`. -/
def assembleProject (project : JiraProject)
    (roles : List JiraProjectRoleDetails) : Project :=
  { id := project.id, key := project.key,
    lead := { displayName := project.lead.displayName },
    groupRoles := assembleGroupRoles roles }

/-- Model of `fetchProject`, as a function of the abstract results of its two
remote stages: the decoded project fetch (`projectResult`) and the role
details fetch (`rolesResult`).  The final `match` models `RTE.orElseW`:
only `ProjectNotFound` is recovered into an absent result. -/
def fetchProject (projectKey : String)
    (projectResult : Except JiraError JiraProject)
    (rolesResult : Except JiraError (List JiraProjectRoleDetails)) :
    Except JiraError (Option Project) :=
  let mapped : Except JiraError JiraProject :=
    match projectResult with
    | Except.error e => Except.error (mapProjectFetchError projectKey e)
    | Except.ok p => Except.ok p
  let withRoles : Except JiraError Project :=
    match mapped with
    | Except.error e => Except.error e
    | Except.ok project =>
      match rolesResult with
      | Except.error e => Except.error e
      | Except.ok roles => Except.ok (assembleProject project roles)
  match withRoles with
  | Except.ok project => Except.ok (some project)
  | Except.error e =>
    match e with
    | JiraError.projectNotFound _ _ _ => Except.ok none
    | e => Except.error e

/-- Model of `fetchFilterForBoard`: a filter is fetched only when the board
configuration carries a filter id.  `filterFetch` abstracts
`fetchFilter` for the given id. -/
def fetchFilterForBoard (boardConfiguration : BoardConfiguration)
    (filterFetch : String → Except JiraError FilterConfiguration) :
    Except JiraError (Option FilterConfiguration) :=
  match boardConfiguration.filter.id with
  | some filterId => Except.map some (filterFetch filterId)
  | none => Except.ok none

/-- Model of `fetchFilter`, as a function of the raw result of its remote call:
decode failures become `AggregateError`s carrying every violation. -/
def fetchFilter (filterId : String) (raw : Except JiraError Json) :
    Except JiraError FilterConfiguration :=
  match raw with
  | Except.error e => Except.error e
  | Except.ok payload =>
    match decode (filterConfigurationMessage filterId)
        decodeFilterConfiguration payload with
    | Except.error agg => Except.error (JiraError.aggregate agg.errors agg.message)
    | Except.ok filterConfiguration => Except.ok filterConfiguration

/-- Model of `fetchBoardConfiguration`, as a function of the raw result of its
remote call and of the filter fetches: decode the configuration, resolve
the optional filter, assemble the `ProjectBoard`. -/
def fetchBoardConfiguration (boardId : Int)
    (raw : Except JiraError Json)
    (filterFetch : String → Except JiraError FilterConfiguration) :
    Except JiraError ProjectBoard :=
  match raw with
  | Except.error e => Except.error e
  | Except.ok payload =>
    match decode (boardConfigurationMessage boardId)
        decodeBoardConfiguration payload with
    | Except.error agg => Except.error (JiraError.aggregate agg.errors agg.message)
    | Except.ok boardConfiguration =>
      match fetchFilterForBoard boardConfiguration filterFetch with
      | Except.error e => Except.error e
      | Except.ok maybeFilter =>
        Except.ok
          { id := boardConfiguration.id, name := boardConfiguration.name,
            type := boardConfiguration.type, filter := maybeFilter }

/-! ### Concrete example values used by witnesses and counterexamples -/

/-- A group-backed example group named like a developers group. -/
def exGroupDev : JiraGroup :=
  { groupId := "gid-1", displayName := "acme-developers" }

/-- A project in which `acme-developers` holds exactly the expected role. -/
def exProjectOk : Project :=
  { id := "10", key := "ACME", lead := { displayName := "Lead" },
    groupRoles := [{ role := "Team Member", groups := [exGroupDev] }] }

/-- A project in which `acme-developers` holds only an unexpected role
(so an extra role and a missing role occur simultaneously). -/
def exProjectBoth : Project :=
  { id := "10", key := "ACME", lead := { displayName := "Lead" },
    groupRoles := [{ role := "Other", groups := [exGroupDev] }] }

/-- A project with no group/role bindings at all. -/
def exProjectNone : Project :=
  { id := "10", key := "ACME", lead := { displayName := "Lead" },
    groupRoles := [] }

/-- A share permission referencing project id `10`. -/
def exShareTen : SharePermission :=
  { id := 1, type := "project",
    project := { self := "s", name := "Acme", id := "10",
                 projectTypeKey := "software", key := "ACME" } }

/-- A share permission referencing a different project id. -/
def exShareOther : SharePermission :=
  { id := 2, type := "project",
    project := { self := "s", name := "Zed", id := "99",
                 projectTypeKey := "software", key := "ZED" } }

/-- A filter shared with project id `10`. -/
def exFilterShared : FilterConfiguration :=
  { id := "f1", name := "Filter One", jql := "project = ACME",
    sharePermissions := [exShareTen] }

/-- A filter shared only with a different project. -/
def exFilterUnshared : FilterConfiguration :=
  { id := "f2", name := "Filter Two", jql := "project = ZED",
    sharePermissions := [exShareOther] }

/-- A board with no resolved filter. -/
def exBoardNoFilter : ProjectBoard :=
  { filter := none, id := 7, name := "Board A", type := "kanban" }

/-- A board whose filter is shared with the subject project. -/
def exBoardShared : ProjectBoard :=
  { filter := some exFilterShared, id := 8, name := "Board B", type := "kanban" }

/-- A board whose filter is not shared with the subject project. -/
def exBoardUnshared : ProjectBoard :=
  { filter := some exFilterUnshared, id := 9, name := "Board C",
    type := "kanban" }

/-- A decoded project-fetch response. -/
def exJiraProject : JiraProject :=
  { self := "s", name := "Acme", id := "10", projectTypeKey := "software",
    key := "ACME",
    lead := { displayName := "Lead", self := "u", accountId := "a1" } }

/-- A role whose only actor is user-backed. -/
def exRoleUserOnly : JiraProjectRoleDetails :=
  { id := 1, name := "Developers", self := "r1",
    actors := [{ id := 5, displayName := "Some User",
                 detail := JiraRoleActorDetail.user "acct-1" }] }

/-- A role with one group-backed and one user-backed actor. -/
def exRoleWithGroup : JiraProjectRoleDetails :=
  { id := 2, name := "Team Member", self := "r2",
    actors := [{ id := 6, displayName := "acme-developers",
                 detail := JiraRoleActorDetail.group exGroupDev },
               { id := 7, displayName := "Someone",
                 detail := JiraRoleActorDetail.user "acct-2" }] }

/-- The JSON envelope value `\x7b errorMessages: [...] \x7d` for a
"no project found" failure. -/
def exNotFoundJson : Json :=
  Json.obj
    [("errorMessages",
      Json.arr [Json.str "No project could be found with id 10"])]

/-- A `JSON.parse` oracle for the witness: one message parses to the
"no project found" envelope, everything else fails to parse. -/
def exParse (s : String) : Option Json :=
  if s == "notFoundBody" then some exNotFoundJson else none

/-- A board-configuration payload whose required `type` field is
missing. -/
def exBoardPayloadNoType : Json :=
  Json.obj
    [("id", Json.num 84), ("name", Json.str "Board84"),
     ("filter", Json.obj [])]

/-- A board-configuration payload missing both `name` and `type`. -/
def exBoardPayloadTwoBad : Json :=
  Json.obj [("id", Json.num 84), ("filter", Json.obj [])]

/-- The fields of a board-configuration payload with no `filter` key. -/
def exBoardFieldsNoFilterKey : List (String × Json) :=
  [("id", Json.num 84), ("name", Json.str "Board84"),
   ("type", Json.str "kanban")]

/-- A board-configuration payload with no `filter` key at all. -/
def exBoardPayloadNoFilterKey : Json :=
  Json.obj exBoardFieldsNoFilterKey

/-- A board-configuration payload whose `filter` object carries no id. -/
def exBoardPayloadFilterNoId : Json :=
  Json.obj
    [("id", Json.num 84), ("name", Json.str "Board84"),
     ("type", Json.str "kanban"), ("filter", Json.obj [])]

/-- The fields of a share-permission entry with `type` set to `group`
instead of the literal `project`. -/
def exBadShareEntryFields : List (String × Json) :=
  [("id", Json.num 3), ("type", Json.str "group"),
   ("project",
    Json.obj
      [("self", Json.str "s"), ("name", Json.str "Acme"),
       ("id", Json.str "10"),
       ("projectTypeKey", Json.str "software"),
       ("key", Json.str "ACME")])]

/-- The group-shared permission entry itself. -/
def exBadShareEntry : Json := Json.obj exBadShareEntryFields

/-- The fields of a filter payload whose single share permission is the
group-shared entry. -/
def exFilterFieldsGroupShare : List (String × Json) :=
  [("id", Json.str "f9"), ("name", Json.str "Filter Nine"),
   ("jql", Json.str "project = ACME"),
   ("sharePermissions", Json.arr [exBadShareEntry])]

/-- A filter payload whose single share permission has `type` set to
`group` instead of the literal `project`. -/
def exFilterPayloadGroupShare : Json :=
  Json.obj exFilterFieldsGroupShare

/-- A decoded board configuration whose filter reference has no id. -/
def exBoardConfigNoFilterId : BoardConfiguration :=
  { id := 84, name := "Board84", type := "kanban",
    filter := { id := none, self := none } }

/-- A filter fetch oracle that would fail loudly if consulted. -/
def exFilterFetchFail (filterId : String) :
    Except JiraError FilterConfiguration :=
  Except.error (JiraError.err ("unexpected fetch of " ++ filterId) none)

/-! ### Helper lemmas -/

theorem strEndsWith_iff {s pat : String} :
    strEndsWith s pat = true ↔ pat.data <:+ s.data := by
  simp [strEndsWith]

theorem strStartsWith_append2 (p a b : String) :
    strStartsWith (p ++ a ++ b) p = true := by
  simp [strStartsWith, String.data_append, List.append_assoc]

theorem not_strEndsWith_both {a b : String} (hab : ¬ (a.data <:+ b.data))
    (hlen : a.data.length ≤ b.data.length) (s : String) :
    ¬ (strEndsWith s b = true ∧ strEndsWith s a = true) := by
  rintro ⟨hb, ha⟩
  exact hab
    (List.suffix_of_suffix_length_le (strEndsWith_iff.mp ha)
      (strEndsWith_iff.mp hb) hlen)

theorem filter_not_contains_nil {A B : List String}
    (h : ∀ r ∈ A, r ∈ B) :
    A.filter (fun a => !(B.contains a)) = [] := by
  rw [List.filter_eq_nil_iff]
  intro a ha
  simp only [List.contains, Bool.not_eq_true', Bool.not_eq_true]
  simpa using h a ha

theorem mem_filter_not_contains {A B : List String} {r : String}
    (hrA : r ∈ A) (hrB : r ∉ B) :
    r ∈ A.filter (fun a => !(B.contains a)) := by
  refine List.mem_filter.mpr ⟨hrA, ?_⟩
  simpa [List.contains] using hrB

theorem extraRolesFor_eq_nil {project : Project} {group : String}
    (h : ∀ r ∈ actualRolesFor project group, r ∈ rolesForGroup group) :
    extraRolesFor project group = [] :=
  filter_not_contains_nil h

theorem missingRolesFor_eq_nil {project : Project} {group : String}
    (h : ∀ r ∈ rolesForGroup group, r ∈ actualRolesFor project group) :
    missingRolesFor project group = [] :=
  filter_not_contains_nil h

theorem extraRolesFor_ne_nil {project : Project} {group : String}
    (h : ∃ r ∈ actualRolesFor project group, r ∉ rolesForGroup group) :
    extraRolesFor project group ≠ [] := by
  obtain ⟨r, hrA, hrB⟩ := h
  exact List.ne_nil_of_mem (mem_filter_not_contains hrA hrB)

theorem missingRolesFor_ne_nil {project : Project} {group : String}
    (h : ∃ r ∈ rolesForGroup group, r ∉ actualRolesFor project group) :
    missingRolesFor project group ≠ [] := by
  obtain ⟨r, hrB, hrA⟩ := h
  exact List.ne_nil_of_mem (mem_filter_not_contains hrB hrA)

theorem hasGroupE_of_present {project : Project} {group : String}
    (h : groupPresent project group = true) :
    hasGroupE project group = Except.ok group := by
  simp [hasGroupE, h]

theorem hasNoExtraRolesE_of_ne {project : Project} {group : String}
    (h : extraRolesFor project group ≠ []) :
    hasNoExtraRolesE project group =
      Except.error
        ["Extra roles [" ++
          String.intercalate ", " (extraRolesFor project group) ++ "]"] := by
  simp [hasNoExtraRolesE, h]

theorem hasNoMissingRolesE_of_ne {project : Project} {group : String}
    (h : missingRolesFor project group ≠ []) :
    hasNoMissingRolesE project group =
      Except.error
        ["Missing roles [" ++
          String.intercalate ", " (missingRolesFor project group) ++ "]"] := by
  simp [hasNoMissingRolesE, h]

theorem hasNoExtraRolesE_of_nil {project : Project} {group : String}
    (h : extraRolesFor project group = []) :
    hasNoExtraRolesE project group = Except.ok group := by
  simp [hasNoExtraRolesE, h]

theorem hasNoMissingRolesE_of_nil {project : Project} {group : String}
    (h : missingRolesFor project group = []) :
    hasNoMissingRolesE project group = Except.ok group := by
  simp [hasNoMissingRolesE, h]

/-! ### Claim theorems -/

/-- C8: `rolesForGroup` returns `["Team Member"]` for names ending in
`-developers`, `["Business Owner"]` for `-business`,
`["Administrators"]` for `-administrators`, and `[]` otherwise; the
three suffix conditions are pairwise mutually exclusive, and with the
default the mapping is exhaustive. -/
theorem rolesForGroup_spec (g : String) :
    (strEndsWith g "-developers" = true →
      rolesForGroup g = ["Team Member"]) ∧
    (strEndsWith g "-business" = true →
      rolesForGroup g = ["Business Owner"]) ∧
    (strEndsWith g "-administrators" = true →
      rolesForGroup g = ["Administrators"]) ∧
    (strEndsWith g "-developers" = false →
      strEndsWith g "-business" = false →
      strEndsWith g "-administrators" = false → rolesForGroup g = []) ∧
    ¬ (strEndsWith g "-developers" = true ∧
        strEndsWith g "-business" = true) ∧
    ¬ (strEndsWith g "-developers" = true ∧
        strEndsWith g "-administrators" = true) ∧
    ¬ (strEndsWith g "-business" = true ∧
        strEndsWith g "-administrators" = true) := by
  have hdb :
      ¬ (strEndsWith g "-developers" = true ∧
          strEndsWith g "-business" = true) :=
    not_strEndsWith_both (a := "-business") (b := "-developers")
      (by decide) (by decide) g
  have hda :
      ¬ (strEndsWith g "-administrators" = true ∧
          strEndsWith g "-developers" = true) :=
    not_strEndsWith_both (a := "-developers") (b := "-administrators")
      (by decide) (by decide) g
  have hba :
      ¬ (strEndsWith g "-administrators" = true ∧
          strEndsWith g "-business" = true) :=
    not_strEndsWith_both (a := "-business") (b := "-administrators")
      (by decide) (by decide) g
  refine ⟨?_, ?_, ?_, ?_, hdb, fun h => hda ⟨h.2, h.1⟩,
    fun h => hba ⟨h.2, h.1⟩⟩
  · intro h
    simp [rolesForGroup, h]
  · intro h
    have hdev : strEndsWith g "-developers" = false := by
      cases hd : strEndsWith g "-developers" with
      | false => rfl
      | true => exact absurd ⟨hd, h⟩ hdb
    simp [rolesForGroup, h, hdev]
  · intro h
    have hdev : strEndsWith g "-developers" = false := by
      cases hd : strEndsWith g "-developers" with
      | false => rfl
      | true => exact absurd ⟨h, hd⟩ hda
    have hbus : strEndsWith g "-business" = false := by
      cases hb : strEndsWith g "-business" with
      | false => rfl
      | true => exact absurd ⟨h, hb⟩ hba
    simp [rolesForGroup, h, hdev, hbus]
  · intro h1 h2 h3
    simp [rolesForGroup, h1, h2, h3]

/-- Witness for C8 at concrete group names. -/
theorem rolesForGroup_spec_witness :
    rolesForGroup "acme-developers" = ["Team Member"] ∧
    rolesForGroup "acme-business" = ["Business Owner"] ∧
    rolesForGroup "acme-administrators" = ["Administrators"] ∧
    rolesForGroup "plain" = [] :=
  ⟨(rolesForGroup_spec "acme-developers").1 (by decide),
   (rolesForGroup_spec "acme-business").2.1 (by decide),
   (rolesForGroup_spec "acme-administrators").2.2.1 (by decide),
   (rolesForGroup_spec "plain").2.2.2.1 (by decide) (by decide) (by decide)⟩

/-- C1: `validatedGroup` accumulates independent failures additively.
If the group is absent the outcome is a failure with exactly the one
"does not have required group" reason; if present with exactly the
expected role set the outcome is success; an unexpected role yields an
"Extra roles [...]" reason; an absent expected role yields a
"Missing roles [...]" reason; and when both occur at once BOTH reasons
appear together in the one outcome (missing first, then extra). -/
theorem validatedGroup_spec (project : Project) (group : String) :
    (groupPresent project group = false →
      validatedGroup project group =
        Except.error
          ["Project does not have required group [" ++ group ++ "]."]) ∧
    (groupPresent project group = true →
      (∀ r, r ∈ actualRolesFor project group ↔ r ∈ rolesForGroup group) →
      validatedGroup project group = Except.ok group) ∧
    (groupPresent project group = true →
      (∃ r ∈ actualRolesFor project group, r ∉ rolesForGroup group) →
      ∃ errs, validatedGroup project group = Except.error errs ∧
        ∃ m ∈ errs, strStartsWith m "Extra roles [" = true) ∧
    (groupPresent project group = true →
      (∃ r ∈ rolesForGroup group, r ∉ actualRolesFor project group) →
      ∃ errs, validatedGroup project group = Except.error errs ∧
        ∃ m ∈ errs, strStartsWith m "Missing roles [" = true) ∧
    (groupPresent project group = true →
      (∃ r ∈ actualRolesFor project group, r ∉ rolesForGroup group) →
      (∃ r ∈ rolesForGroup group, r ∉ actualRolesFor project group) →
      validatedGroup project group =
        Except.error
          ["Missing roles [" ++
             String.intercalate ", " (missingRolesFor project group) ++ "]",
           "Extra roles [" ++
             String.intercalate ", " (extraRolesFor project group) ++ "]"]) := by
  refine ⟨?_, ?_, ?_, ?_, ?_⟩
  · intro h
    simp [validatedGroup, hasGroupE, h]
  · intro hpres hset
    have hex : extraRolesFor project group = [] :=
      extraRolesFor_eq_nil (fun r hr => (hset r).mp hr)
    have hmiss : missingRolesFor project group = [] :=
      missingRolesFor_eq_nil (fun r hr => (hset r).mpr hr)
    simp [validatedGroup, hasGroupE_of_present hpres,
      hasNoExtraRolesE_of_nil hex, hasNoMissingRolesE_of_nil hmiss]
  · intro hpres hex
    have hE := hasNoExtraRolesE_of_ne (extraRolesFor_ne_nil hex)
    by_cases hm : missingRolesFor project group = []
    · have hres : validatedGroup project group =
          Except.error
            ["Extra roles [" ++
              String.intercalate ", " (extraRolesFor project group) ++ "]"] := by
        simp [validatedGroup, hasGroupE_of_present hpres,
          hasNoMissingRolesE_of_nil hm, hE]
      exact ⟨_, hres, _, List.mem_singleton.mpr rfl,
        strStartsWith_append2 _ _ _⟩
    · have hM := hasNoMissingRolesE_of_ne hm
      have hres : validatedGroup project group =
          Except.error
            ["Missing roles [" ++
              String.intercalate ", " (missingRolesFor project group) ++ "]",
             "Extra roles [" ++
              String.intercalate ", " (extraRolesFor project group) ++ "]"] := by
        simp [validatedGroup, hasGroupE_of_present hpres, hM, hE]
      exact ⟨_, hres, _,
        List.mem_cons_of_mem _ (List.mem_singleton.mpr rfl),
        strStartsWith_append2 _ _ _⟩
  · intro hpres hmiss
    have hM := hasNoMissingRolesE_of_ne (missingRolesFor_ne_nil hmiss)
    by_cases he : extraRolesFor project group = []
    · have hres : validatedGroup project group =
          Except.error
            ["Missing roles [" ++
              String.intercalate ", " (missingRolesFor project group) ++ "]"] := by
        simp [validatedGroup, hasGroupE_of_present hpres,
          hasNoExtraRolesE_of_nil he, hM]
      exact ⟨_, hres, _, List.mem_singleton.mpr rfl,
        strStartsWith_append2 _ _ _⟩
    · have hE := hasNoExtraRolesE_of_ne he
      have hres : validatedGroup project group =
          Except.error
            ["Missing roles [" ++
              String.intercalate ", " (missingRolesFor project group) ++ "]",
             "Extra roles [" ++
              String.intercalate ", " (extraRolesFor project group) ++ "]"] := by
        simp [validatedGroup, hasGroupE_of_present hpres, hM, hE]
      exact ⟨_, hres, _, List.mem_cons_self _ _,
        strStartsWith_append2 _ _ _⟩
  · intro hpres hex hmiss
    have hE := hasNoExtraRolesE_of_ne (extraRolesFor_ne_nil hex)
    have hM := hasNoMissingRolesE_of_ne (missingRolesFor_ne_nil hmiss)
    simp [validatedGroup, hasGroupE_of_present hpres, hM, hE]

/-- Witness for C1: a project without the group, a correctly configured
project, and a project exhibiting an extra and a missing role at once. -/
theorem validatedGroup_spec_witness :
    (validatedGroup exProjectNone "acme-developers" =
      Except.error
        ["Project does not have required group [acme-developers]."]) ∧
    (validatedGroup exProjectOk "acme-developers" =
      Except.ok "acme-developers") ∧
    (validatedGroup exProjectBoth "acme-developers" =
      Except.error
        ["Missing roles [" ++
           String.intercalate ", "
             (missingRolesFor exProjectBoth "acme-developers") ++ "]",
         "Extra roles [" ++
           String.intercalate ", "
             (extraRolesFor exProjectBoth "acme-developers") ++ "]"]) :=
  ⟨(validatedGroup_spec exProjectNone "acme-developers").1 (by decide),
   (validatedGroup_spec exProjectOk "acme-developers").2.1 (by decide)
     (by
       have h1 : actualRolesFor exProjectOk "acme-developers" =
           ["Team Member"] := by decide
       have h2 : rolesForGroup "acme-developers" = ["Team Member"] := by
         decide
       intro r
       rw [h1, h2]),
   (validatedGroup_spec exProjectBoth "acme-developers").2.2.2.2
     (by decide) (by decide) (by decide)⟩

/-- C3: `validatedFilter` short-circuits its two dependent checks: no
resolved filter gives the single "does not have a filter" reason (the
sharing check is not evaluated); a filter shared with no entry matching
the subject project's id gives the "not shared" reason; a filter with a
matching share permission succeeds carrying the filter (and hence its
JQL string). -/
theorem validatedFilter_spec (project : Project) (board : ProjectBoard) :
    (board.filter = none →
      validatedFilter project board =
        Except.error ["Project board does not have a filter."]) ∧
    (∀ filter, board.filter = some filter →
      (¬ ∃ permission ∈ filter.sharePermissions,
          permission.project.id = project.id) →
      validatedFilter project board =
        Except.error ["Filter is not shared with project."]) ∧
    (∀ filter, board.filter = some filter →
      (∃ permission ∈ filter.sharePermissions,
          permission.project.id = project.id) →
      validatedFilter project board = Except.ok filter) := by
  refine ⟨?_, ?_, ?_⟩
  · intro h
    simp [validatedFilter, h]
  · intro filter hf hnone
    have hany : filter.sharePermissions.any (fun permission =>
        permission.project.id == project.id) = false := by
      rw [List.any_eq_false]
      intro permission hmem
      simp only [beq_iff_eq]
      exact fun heq => hnone ⟨permission, hmem, heq⟩
    simp [validatedFilter, hf, hany]
  · intro filter hf hsome
    have hany : filter.sharePermissions.any (fun permission =>
        permission.project.id == project.id) = true := by
      rw [List.any_eq_true]
      obtain ⟨permission, hmem, heq⟩ := hsome
      exact ⟨permission, hmem, by simp [heq]⟩
    simp [validatedFilter, hf, hany]

/-- Witness for C3 at a board with no filter, an unshared filter, and a
shared filter. -/
theorem validatedFilter_spec_witness :
    (validatedFilter exProjectOk exBoardNoFilter =
      Except.error ["Project board does not have a filter."]) ∧
    (validatedFilter exProjectOk exBoardUnshared =
      Except.error ["Filter is not shared with project."]) ∧
    (validatedFilter exProjectOk exBoardShared =
      Except.ok exFilterShared) :=
  ⟨(validatedFilter_spec exProjectOk exBoardNoFilter).1 (by decide),
   (validatedFilter_spec exProjectOk exBoardUnshared).2.1 exFilterUnshared
     (by decide) (by decide),
   (validatedFilter_spec exProjectOk exBoardShared).2.2 exFilterShared
     (by decide) (by decide)⟩

/-- An actor list containing a group-backed actor yields a non-empty
group extraction. -/
theorem filterMap_actorGroup_ne_nil {actors : List JiraRoleActor}
    (h : actors.any isActorGroupRole = true) :
    actors.filterMap actorGroup? ≠ [] := by
  induction actors with
  | nil => simp at h
  | cons a as ih =>
    rw [List.any_cons] at h
    cases hd : a.detail with
    | group g =>
      simp [List.filterMap_cons, actorGroup?, hd]
    | user u =>
      have ha : isActorGroupRole a = false := by
        simp [isActorGroupRole, hd]
      rw [ha] at h
      simp only [Bool.false_or] at h
      simpa [List.filterMap_cons, actorGroup?, hd] using ih h

/-- C7: every `ProjectGroupRole` in the `groupRoles` of a `Project`
assembled by the orchestrator has a non-empty `groups` list (roles
without a group-backed actor are filtered out before the mapping). -/
theorem groupRoles_nonempty (project : JiraProject)
    (roles : List JiraProjectRoleDetails) (gr : ProjectGroupRole)
    (h : gr ∈ (assembleProject project roles).groupRoles) :
    gr.groups ≠ [] := by
  have h' : gr ∈ assembleGroupRoles roles := h
  obtain ⟨role, hrole, rfl⟩ := List.mem_map.mp h'
  exact filterMap_actorGroup_ne_nil (List.mem_filter.mp hrole).2

/-- Witness for C7: a concrete assembled project with one group-backed
role. -/
theorem groupRoles_nonempty_witness :
    ProjectGroupRole.mk "Team Member" [exGroupDev] ∈
        (assembleProject exJiraProject [exRoleWithGroup]).groupRoles ∧
    (ProjectGroupRole.mk "Team Member" [exGroupDev]).groups ≠ [] :=
  ⟨by decide,
   groupRoles_nonempty exJiraProject [exRoleWithGroup] _ (by decide)⟩

/-- Counterexample for C4: a fetched role whose only actor is
user-backed does NOT appear in the assembled `groupRoles` at all — in
particular not with an empty group list, contrary to the claim. -/
theorem groupRoles_every_role_cex :
    (assembleProject exJiraProject [exRoleUserOnly]).groupRoles = [] ∧
    ¬ (ProjectGroupRole.mk exRoleUserOnly.name [] ∈
        (assembleProject exJiraProject [exRoleUserOnly]).groupRoles) := by
  decide

/-- C4 (amended): the assembled `groupRoles` contains an entry exactly
for every fetched role that has at least one group-backed actor (paired
with the groups of those actors); roles with no group-backed actor are
omitted rather than included with an empty group list. -/
theorem groupRoles_assembly_amended (project : JiraProject)
    (roles : List JiraProjectRoleDetails) :
    (∀ role ∈ roles, role.actors.any isActorGroupRole = true →
      ProjectGroupRole.mk role.name (role.actors.filterMap actorGroup?) ∈
        (assembleProject project roles).groupRoles) ∧
    (∀ gr ∈ (assembleProject project roles).groupRoles,
      ∃ role ∈ roles, role.actors.any isActorGroupRole = true ∧
        gr = ProjectGroupRole.mk role.name
          (role.actors.filterMap actorGroup?)) := by
  constructor
  · intro role hrole hany
    exact List.mem_map_of_mem _ (List.mem_filter.mpr ⟨hrole, hany⟩)
  · intro gr hgr
    obtain ⟨role, hrole, heq⟩ := List.mem_map.mp hgr
    have h1 := List.mem_filter.mp hrole
    exact ⟨role, h1.1, h1.2, heq.symm⟩

/-- Witness for the amended C4: with one user-only role and one
group-backed role fetched, the group-backed role appears. -/
theorem groupRoles_assembly_amended_witness :
    ProjectGroupRole.mk "Team Member"
        (exRoleWithGroup.actors.filterMap actorGroup?) ∈
      (assembleProject exJiraProject
        [exRoleUserOnly, exRoleWithGroup]).groupRoles :=
  (groupRoles_assembly_amended exJiraProject
      [exRoleUserOnly, exRoleWithGroup]).1
    exRoleWithGroup (by decide) (by decide)

/-- Counterexample for C2: an envelope whose messages do not match the
"no project found" prefix does NOT propagate unchanged — it is wrapped
into an "Unknown error while retrieving project" error. -/
theorem fetchProject_unchanged_cex :
    fetchProject "PROJ" (Except.error (JiraError.envelope ["boom"]))
        (Except.ok []) ≠
      Except.error (JiraError.envelope ["boom"]) := by
  decide

/-- C2 (amended): a project-fetch failure whose error is the service
envelope with a message starting with "No project could be found with"
recovers to the absent result; an envelope with no matching message
aborts wrapped as an unknown-error `Error` that preserves the envelope
as its cause; a non-envelope error (generic `Error` or decode
`AggregateError`) aborts propagated unchanged. -/
theorem fetchProject_recovery_amended (projectKey : String)
    (rolesResult : Except JiraError (List JiraProjectRoleDetails)) :
    (∀ msgs,
      (∃ m ∈ msgs,
        strStartsWith m "No project could be found with" = true) →
      fetchProject projectKey (Except.error (JiraError.envelope msgs))
        rolesResult = Except.ok none) ∧
    (∀ msgs,
      (∀ m ∈ msgs,
        strStartsWith m "No project could be found with" = false) →
      fetchProject projectKey (Except.error (JiraError.envelope msgs))
        rolesResult =
        Except.error
          (JiraError.err
            ("Unknown error while retrieving project [" ++ projectKey ++ "].")
            (some (ErrorCause.envelope msgs)))) ∧
    (∀ message cause,
      fetchProject projectKey
        (Except.error (JiraError.err message cause)) rolesResult =
        Except.error (JiraError.err message cause)) ∧
    (∀ errors message,
      fetchProject projectKey
        (Except.error (JiraError.aggregate errors message)) rolesResult =
        Except.error (JiraError.aggregate errors message)) := by
  refine ⟨?_, ?_, ?_, ?_⟩
  · intro msgs hex
    have hany : msgs.any (fun errorMessage =>
        strStartsWith errorMessage "No project could be found with") =
          true := by
      rw [List.any_eq_true]
      obtain ⟨m, hm, hsw⟩ := hex
      exact ⟨m, hm, hsw⟩
    simp [fetchProject, mapProjectFetchError, hany]
  · intro msgs hall
    have hany : msgs.any (fun errorMessage =>
        strStartsWith errorMessage "No project could be found with") =
          false := by
      rw [List.any_eq_false]
      intro m hm
      simp [hall m hm]
    simp [fetchProject, mapProjectFetchError, hany]
  · intro message cause
    simp [fetchProject, mapProjectFetchError]
  · intro errors message
    simp [fetchProject, mapProjectFetchError]

/-- Witness for the amended C2 at concrete envelopes and a concrete
generic error. -/
theorem fetchProject_recovery_amended_witness :
    (fetchProject "PROJ"
        (Except.error
          (JiraError.envelope ["No project could be found with id 10"]))
        (Except.ok []) = Except.ok none) ∧
    (fetchProject "PROJ" (Except.error (JiraError.envelope ["boom"]))
        (Except.ok []) =
      Except.error
        (JiraError.err "Unknown error while retrieving project [PROJ]."
          (some (ErrorCause.envelope ["boom"])))) ∧
    (fetchProject "PROJ" (Except.error (JiraError.err "kaput" none))
        (Except.ok []) =
      Except.error (JiraError.err "kaput" none)) :=
  ⟨(fetchProject_recovery_amended "PROJ" (Except.ok [])).1
      ["No project could be found with id 10"] (by decide),
   (fetchProject_recovery_amended "PROJ" (Except.ok [])).2.1
      ["boom"] (by decide),
   (fetchProject_recovery_amended "PROJ" (Except.ok [])).2.2.1
      "kaput" none⟩

/-- C6: `makeRequest` returns the raw payload unchanged on success; on
failure, an `Error` whose message parses as JSON and decodes as the
`\x7b errorMessages: string[] \x7d` envelope is exposed as that
structured envelope; any other failure (parse failure, envelope decode
failure, or a non-`Error` thrown value) becomes the generic
"Failed when invoking Jira API." error whose cause preserves the
original. -/
theorem makeRequest_spec (parse : String → Option Json) :
    (∀ payload, makeRequest parse (Except.ok payload) = Except.ok payload) ∧
    (∀ msg json msgs, parse msg = some json →
      decodeJiraErrorResponse json = Except.ok msgs →
      makeRequest parse (Except.error (Thrown.errObj msg)) =
        Except.error (JiraError.envelope msgs)) ∧
    (∀ msg, parse msg = none →
      makeRequest parse (Except.error (Thrown.errObj msg)) =
        Except.error
          (JiraError.err "Failed when invoking Jira API."
            (some (chainableError (Thrown.errObj msg))))) ∧
    (∀ msg json errs, parse msg = some json →
      decodeJiraErrorResponse json = Except.error errs →
      makeRequest parse (Except.error (Thrown.errObj msg)) =
        Except.error
          (JiraError.err "Failed when invoking Jira API."
            (some (chainableError (Thrown.errObj msg))))) ∧
    (∀ jsonText,
      makeRequest parse (Except.error (Thrown.nonError jsonText)) =
        Except.error
          (JiraError.err "Failed when invoking Jira API."
            (some (chainableError (Thrown.nonError jsonText))))) := by
  refine ⟨?_, ?_, ?_, ?_, ?_⟩
  · intro payload
    rfl
  · intro msg json msgs hparse hdec
    simp [makeRequest, classifyRequestError, hparse, hdec]
  · intro msg hparse
    simp [makeRequest, classifyRequestError, hparse]
  · intro msg json errs hparse hdec
    simp [makeRequest, classifyRequestError, hparse, hdec]
  · intro jsonText
    rfl

/-- Witness for C6: the concrete `exParse` oracle with a matching
envelope body, a non-JSON body, and a non-`Error` thrown value. -/
theorem makeRequest_spec_witness :
    (makeRequest exParse (Except.ok Json.null) = Except.ok Json.null) ∧
    (makeRequest exParse (Except.error (Thrown.errObj "notFoundBody")) =
      Except.error
        (JiraError.envelope ["No project could be found with id 10"])) ∧
    (makeRequest exParse (Except.error (Thrown.errObj "plain failure")) =
      Except.error
        (JiraError.err "Failed when invoking Jira API."
          (some (chainableError (Thrown.errObj "plain failure"))))) ∧
    (makeRequest exParse (Except.error (Thrown.nonError "42")) =
      Except.error
        (JiraError.err "Failed when invoking Jira API."
          (some (chainableError (Thrown.nonError "42"))))) :=
  ⟨(makeRequest_spec exParse).1 Json.null,
   (makeRequest_spec exParse).2.1 "notFoundBody" exNotFoundJson
     ["No project could be found with id 10"] rfl rfl,
   (makeRequest_spec exParse).2.2.1 "plain failure" rfl,
   (makeRequest_spec exParse).2.2.2.2 "42"⟩

theorem strStartsWith_iff {s pat : String} :
    strStartsWith s pat = true ↔ pat.data <+: s.data := by
  simp [strStartsWith]

theorem prefix_append_of_prefix {x y l : List Char} (h : x <+: y) :
    l ++ x <+: l ++ y := by
  obtain ⟨t, rfl⟩ := h
  exact ⟨t, by rw [List.append_assoc]⟩

theorem vApp_error_right {α β : Type} (f : Except (List String) (α → β))
    (e : List String) :
    ∃ errs, vApp f (Except.error e) = Except.error errs := by
  cases f with
  | ok g => exact ⟨e, rfl⟩
  | error e1 => exact ⟨e1 ++ e, rfl⟩

theorem vApp_error_right_mem {α β : Type}
    (f : Except (List String) (α → β)) {e : List String} {m : String}
    (hm : m ∈ e) :
    ∃ errs, vApp f (Except.error e) = Except.error errs ∧ m ∈ errs := by
  cases f with
  | ok g => exact ⟨e, rfl, hm⟩
  | error e1 => exact ⟨e1 ++ e, rfl, List.mem_append_right _ hm⟩

theorem vApp_error_left {α β : Type} {f : Except (List String) (α → β)}
    {e : List String} (h : f = Except.error e)
    (a : Except (List String) α) :
    ∃ errs, vApp f a = Except.error errs := by
  subst h
  cases a with
  | ok x => exact ⟨e, rfl⟩
  | error e2 => exact ⟨e ++ e2, rfl⟩

theorem vApp_ok_iff {α β : Type} {f : Except (List String) (α → β)}
    {a : Except (List String) α} {b : β} :
    vApp f a = Except.ok b ↔
      ∃ g x, f = Except.ok g ∧ a = Except.ok x ∧ g x = b := by
  cases f <;> cases a <;> simp [vApp]

theorem except_map_ok_iff {ε α β : Type} {f : α → β} {x : Except ε α}
    {b : β} :
    Except.map f x = Except.ok b ↔ ∃ a, x = Except.ok a ∧ f a = b := by
  cases x <;> simp [Except.map]

theorem decodeArrayWith_error_of_mem {α : Type}
    (dec : Json → Except (List String) α) {items : List Json} {j : Json}
    (hj : j ∈ items) (hbad : ∃ e, dec j = Except.error e) :
    ∃ e, decodeArrayWith dec items = Except.error e := by
  induction items with
  | nil => cases hj
  | cons x xs ih =>
    rcases List.mem_cons.mp hj with rfl | hmem
    · obtain ⟨e, he⟩ := hbad
      have hmap : Except.map List.cons (dec j) =
          Except.error (ε := List String)
            (α := List α → List α) e := by
        rw [he]; rfl
      simp only [decodeArrayWith]
      exact vApp_error_left hmap _
    · obtain ⟨e2, he2⟩ := ih hmem
      simp only [decodeArrayWith]
      rw [he2]
      exact vApp_error_right _ _

/-- C5: `decode` is a pure function of the codec and the payload; on
mismatch it wraps the codec's complete ordered list of violations into
one `AggregateError` whose message embeds the operation context (here
the board id), preserving every individual violation — a payload with
two violations yields both, never only the first.  The missing-`type`
board payload aborts `fetchBoardConfiguration` with the aggregated
error. -/
theorem decode_spec :
    (∀ {α : Type} (message : List String → Json → String)
        (decoder : Json → Except (List String) α) (input : Json)
        (errs : List String),
      decoder input = Except.error errs →
      decode message decoder input =
        Except.error { errors := errs, message := message errs input }) ∧
    (∀ (boardId : Int) (errs : List String) (input : Json),
      strStartsWith (boardConfigurationMessage boardId errs input)
        ("Failed to decode board configuration for [" ++ toString boardId)
          = true) ∧
    (decodeBoardConfiguration exBoardPayloadTwoBad =
      Except.error
        ["Invalid value supplied to name", "Invalid value supplied to type"]) ∧
    (∃ agg,
      decode (boardConfigurationMessage 84) decodeBoardConfiguration
          exBoardPayloadNoType = Except.error agg ∧
      agg.errors = ["Invalid value supplied to type"] ∧
      strStartsWith agg.message
        ("Failed to decode board configuration for [" ++ toString (84 : Int))
          = true) ∧
    (∀ (boardId : Int) (payload : Json) (errs : List String) filterFetch,
      decodeBoardConfiguration payload = Except.error errs →
      fetchBoardConfiguration boardId (Except.ok payload) filterFetch =
        Except.error
          (JiraError.aggregate errs
            (boardConfigurationMessage boardId errs payload))) := by
  have hpre : ∀ (boardId : Int) (errs : List String) (input : Json),
      strStartsWith (boardConfigurationMessage boardId errs input)
        ("Failed to decode board configuration for [" ++ toString boardId)
          = true := by
    intro boardId errs input
    rw [strStartsWith_iff]
    simp only [boardConfigurationMessage, String.data_append,
      List.append_assoc]
    exact prefix_append_of_prefix (List.prefix_append _ _)
  have hwrap : ∀ {α : Type} (message : List String → Json → String)
      (decoder : Json → Except (List String) α) (input : Json)
      (errs : List String),
      decoder input = Except.error errs →
      decode message decoder input =
        Except.error { errors := errs, message := message errs input } := by
    intro α message decoder input errs h
    simp [decode, h]
  refine ⟨hwrap, hpre, rfl, ?_, ?_⟩
  · refine ⟨AggregateError.mk ["Invalid value supplied to type"]
        (boardConfigurationMessage 84 ["Invalid value supplied to type"]
          exBoardPayloadNoType), ?_, rfl,
      hpre 84 ["Invalid value supplied to type"] exBoardPayloadNoType⟩
    exact hwrap (boardConfigurationMessage 84) decodeBoardConfiguration
      exBoardPayloadNoType ["Invalid value supplied to type"] rfl
  · intro boardId payload errs filterFetch h
    simp [fetchBoardConfiguration, decode, h]

/-- Witness for C5: the wrapped aggregate error at the two-violation
payload, and the aborted board fetch at the missing-`type` payload. -/
theorem decode_spec_witness :
    (decode (boardConfigurationMessage 84) decodeBoardConfiguration
        exBoardPayloadTwoBad =
      Except.error
        { errors :=
            ["Invalid value supplied to name",
             "Invalid value supplied to type"],
          message :=
            boardConfigurationMessage 84
              ["Invalid value supplied to name",
               "Invalid value supplied to type"] exBoardPayloadTwoBad }) ∧
    (fetchBoardConfiguration 84 (Except.ok exBoardPayloadNoType)
        exFilterFetchFail =
      Except.error
        (JiraError.aggregate ["Invalid value supplied to type"]
          (boardConfigurationMessage 84 ["Invalid value supplied to type"]
            exBoardPayloadNoType))) :=
  ⟨decode_spec.1 (boardConfigurationMessage 84) decodeBoardConfiguration
      exBoardPayloadTwoBad
      ["Invalid value supplied to name", "Invalid value supplied to type"]
      rfl,
   decode_spec.2.2.2.2 84 exBoardPayloadNoType
      ["Invalid value supplied to type"] exFilterFetchFail rfl⟩

/-- C9: the filter schema admits only share permissions whose `type` is
the literal `project`; a filter payload whose `sharePermissions` list
contains an entry whose `type` field is anything else fails to decode,
so `fetchFilter` aborts with a decode error instead of producing a
filter for the sharing check. -/
theorem filterShare_literal_spec (fields : List (String × Json))
    (items : List Json) (entry : Json) (filterId : String)
    (hsp : jGet fields "sharePermissions" = some (Json.arr items))
    (hentry : entry ∈ items)
    (hbad : ∀ inner, entry = Json.obj inner →
      jGet inner "type" ≠ some (Json.str "project")) :
    (∃ errs,
      decodeFilterConfiguration (Json.obj fields) = Except.error errs) ∧
    (∃ e, fetchFilter filterId (Except.ok (Json.obj fields)) =
      Except.error e) := by
  have hperm : ∃ e, decodeSharePermission entry = Except.error e := by
    cases entry with
    | null => exact ⟨_, rfl⟩
    | bool b => exact ⟨_, rfl⟩
    | num n => exact ⟨_, rfl⟩
    | str s => exact ⟨_, rfl⟩
    | arr xs => exact ⟨_, rfl⟩
    | obj inner =>
      have hlit : ∃ el,
          decodeLiteralAt "sharePermissions/type" "project"
            (jGet inner "type") = Except.error el := by
        cases ht : jGet inner "type" with
        | none => exact ⟨_, rfl⟩
        | some tj =>
          cases tj with
          | str s =>
            have hne : s ≠ "project" := by
              intro h
              exact hbad inner rfl (h ▸ ht)
            have hbeq : (s == "project") = false := by
              simpa using hne
            exact ⟨invalidAt "sharePermissions/type",
              by simp [decodeLiteralAt, hbeq]⟩
          | null => exact ⟨_, rfl⟩
          | bool b => exact ⟨_, rfl⟩
          | num n => exact ⟨_, rfl⟩
          | arr xs => exact ⟨_, rfl⟩
          | obj kvs => exact ⟨_, rfl⟩
      obtain ⟨el, hel⟩ := hlit
      simp only [decodeSharePermission]
      rw [hel]
      obtain ⟨e1, he1⟩ :=
        vApp_error_right
          (Except.map SharePermission.mk
            (decodeNumberAt "sharePermissions/id" (jGet inner "id"))) el
      rw [he1]
      exact vApp_error_left rfl _
  have harr : ∃ e, decodeArrayWith decodeSharePermission items =
      Except.error e :=
    decodeArrayWith_error_of_mem decodeSharePermission hentry hperm
  obtain ⟨ea, hea⟩ := harr
  have hfc : ∃ errs,
      decodeFilterConfiguration (Json.obj fields) = Except.error errs := by
    simp only [decodeFilterConfiguration, hsp]
    rw [hea]
    exact vApp_error_right _ _
  refine ⟨hfc, ?_⟩
  obtain ⟨errs, herrs⟩ := hfc
  exact ⟨JiraError.aggregate errs
      (filterConfigurationMessage filterId errs (Json.obj fields)),
    by simp [fetchFilter, decode, herrs]⟩

/-- Witness for C9: the concrete group-shared filter payload fails to
decode and aborts the filter fetch. -/
theorem filterShare_literal_witness :
    (∃ errs, decodeFilterConfiguration exFilterPayloadGroupShare =
      Except.error errs) ∧
    (∃ e, fetchFilter "f9" (Except.ok exFilterPayloadGroupShare) =
      Except.error e) :=
  filterShare_literal_spec exFilterFieldsGroupShare [exBadShareEntry]
    exBadShareEntry "f9" rfl (List.mem_singleton.mpr rfl)
    (by
      intro inner h
      injection h with h'
      subst h'
      intro hcontra
      rw [show jGet exBadShareEntryFields "type" =
          some (Json.str "group") from rfl] at hcontra
      have hs := Option.some.inj hcontra
      injection hs with hss
      exact absurd hss (by decide))

/-- C10: the `filter` field of the board-configuration schema is itself
required — a payload with no `filter` key fails to decode (with a
violation naming the field); only a present filter object whose
optional `id` is absent decodes to a configuration with no filter id,
for which no filter fetch is issued and the assembled board carries no
resolved filter. -/
theorem boardFilter_required_spec (fields : List (String × Json)) :
    (jGet fields "filter" = none →
      ∃ errs,
        decodeBoardConfiguration (Json.obj fields) = Except.error errs ∧
        "Invalid value supplied to filter" ∈ errs) ∧
    (∀ bc : BoardConfiguration, bc.filter.id = none →
      ∀ filterFetch, fetchFilterForBoard bc filterFetch = Except.ok none) ∧
    (∀ inner, jGet fields "filter" = some (Json.obj inner) →
      jGet inner "id" = none →
      ∀ bc, decodeBoardConfiguration (Json.obj fields) = Except.ok bc →
        bc.filter.id = none) ∧
    (∀ (boardId : Int) (payload : Json) (bc : BoardConfiguration)
        filterFetch,
      decodeBoardConfiguration payload = Except.ok bc →
      bc.filter.id = none →
      fetchBoardConfiguration boardId (Except.ok payload) filterFetch =
        Except.ok (ProjectBoard.mk none bc.id bc.name bc.type)) := by
  refine ⟨?_, ?_, ?_, ?_⟩
  · intro hfil
    have href : decodeFilterRef "filter" (jGet fields "filter") =
        Except.error (invalidAt "filter") := by
      rw [hfil]
      rfl
    simp only [decodeBoardConfiguration]
    rw [href]
    exact vApp_error_right_mem _ (by decide)
  · intro bc h filterFetch
    simp [fetchFilterForBoard, h]
  · intro inner hf hid bc hok
    simp only [decodeBoardConfiguration] at hok
    rw [hf] at hok
    simp only [decodeFilterRef] at hok
    rw [hid] at hok
    obtain ⟨g3, fr, hg3, hfr, hb⟩ := vApp_ok_iff.mp hok
    obtain ⟨h2, s, hh2, hs, hfre⟩ := vApp_ok_iff.mp hfr
    obtain ⟨idv, hidv, hh2e⟩ := except_map_ok_iff.mp hh2
    have hidn : idv = none := by
      simp only [decodeOptStringAt] at hidv
      exact (Except.ok.inj hidv).symm
    obtain ⟨g2, t, hg2, ht, hg3e⟩ := vApp_ok_iff.mp hg3
    obtain ⟨g1, n, hg1, hn, hg2e⟩ := vApp_ok_iff.mp hg2
    obtain ⟨i, hi, hg1e⟩ := except_map_ok_iff.mp hg1
    subst hidn
    subst hh2e
    subst hfre
    subst hg1e
    subst hg2e
    subst hg3e
    subst hb
    rfl
  · intro boardId payload bc filterFetch hok hid
    simp [fetchBoardConfiguration, decode, hok, fetchFilterForBoard, hid]

/-- Witness for C10: the payload without a `filter` key fails; the
configuration with a filter object lacking an id issues no fetch and
yields a filter-less board. -/
theorem boardFilter_required_witness :
    (∃ errs,
      decodeBoardConfiguration exBoardPayloadNoFilterKey =
        Except.error errs ∧
      "Invalid value supplied to filter" ∈ errs) ∧
    (fetchFilterForBoard exBoardConfigNoFilterId exFilterFetchFail =
      Except.ok none) ∧
    (fetchBoardConfiguration 84 (Except.ok exBoardPayloadFilterNoId)
        exFilterFetchFail =
      Except.ok (ProjectBoard.mk none 84 "Board84" "kanban")) :=
  ⟨(boardFilter_required_spec exBoardFieldsNoFilterKey).1 rfl,
   (boardFilter_required_spec exBoardFieldsNoFilterKey).2.1
     exBoardConfigNoFilterId rfl exFilterFetchFail,
   (boardFilter_required_spec exBoardFieldsNoFilterKey).2.2.2 84
     exBoardPayloadFilterNoId
     (BoardConfiguration.mk 84 "Board84" "kanban" (FilterRef.mk none none))
     exFilterFetchFail rfl rfl⟩

end Atlast
